import Mathlib

set_option linter.unusedVariables false

/-!
Verification of the wallet service `src/server.js` (Express/Node, in-memory store)
against its natural-language specification.

The JavaScript handlers are shallowly embedded as pure Lean functions over an
explicit `Store` state.  Monetary values are modelled as `ℚ` (the JS code performs
plain arithmetic and comparisons on numbers; no rounding occurs anywhere in the
source).  Request-supplied fields that the code subjects to JS truthiness checks
(`!recipientId`, `!amount`, `!username`, `!password`) are modelled as `Option`
values, with `none` standing for an absent field and the JS falsy values `""`
(for strings) and `0` (for numbers) checked explicitly, mirroring the source.
Nondeterministic environment inputs (uuid generation, bcrypt hashes, timestamps,
the jsonwebtoken verify call) are passed in as parameters.
-/

/-- A user record, as built by `POST /api/register` and the startup admin block
(`server.js` lines 48-55 and 275-282): `{id, username, email, password, balance, role}`. -/
structure User where
  id : String
  username : String
  email : String
  password : String
  balance : ℚ
  role : String
deriving DecidableEq

/-- A transaction record, as built by `POST /api/send` (`server.js` lines 186-193):
`{id, senderId, recipientId, amount, timestamp, type}`. -/
structure Transaction where
  id : String
  senderId : String
  recipientId : String
  amount : ℚ
  timestamp : String
  type : String
deriving DecidableEq

/-- The in-memory data store (`server.js` lines 21-22): `let users = []; let transactions = [];`. -/
structure Store where
  users : List User
  transactions : List Transaction
deriving DecidableEq

/-- `server.js` line 25: `users.find(user => user.id === id)`. -/
def findUserById (users : List User) (id : String) : Option User :=
  users.find? (fun u => u.id == id)

/-- `server.js` line 28: `users.find(user => user.username === username)`. -/
def findUserByUsername (users : List User) (username : String) : Option User :=
  users.find? (fun u => u.username == username)

/-- In-place mutation of the object returned by `users.find(...)`, i.e. an update of
the balance field of the first list entry whose id matches. -/
def updateFirstBalance : List User → String → (ℚ → ℚ) → List User
  | [], _, _ => []
  | u :: rest, uid, f =>
    if u.id == uid then ⟨u.id, u.username, u.email, u.password, f u.balance, u.role⟩ :: rest
    else u :: updateFirstBalance rest uid f

/-- Balance of the first user with the given id (the field read `user.balance`
performed by the handlers after locating a user); `0` when absent (only ever used
on ids known to be present). -/
def balanceOf (users : List User) (uid : String) : ℚ :=
  match findUserById users uid with
  | some u => u.balance
  | none => 0

/-- The decoded token claims placed on `req.user` by the authentication middleware
(`server.js` lines 87-95): `{userId, username, role}`. -/
structure AuthClaims where
  userId : String
  username : String
  role : String
deriving DecidableEq

/-- Outcome of the `jwt.verify(token, JWT_SECRET)` library call inside
`authenticateToken`: either decoded claims, or a thrown error carrying the
library's message text (`err.message`). -/
inductive VerifyResult where
  | ok (claims : AuthClaims)
  | err (message : String)
deriving DecidableEq

/-- Response of the `authenticateToken` middleware (`server.js` lines 110-127):
401 `Access token required` when the extracted token is falsy, otherwise
403 `{error: 'Invalid token', details: err.message}` when verification throws,
otherwise the decoded claims are installed and the handler runs. -/
inductive AuthResult where
  | missing
  | invalid (details : String)
  | ok (claims : AuthClaims)
deriving DecidableEq

/-- Splitting a character list on spaces, mirroring the JS `authHeader.split(' ')`
(every occurrence splits; adjacent separators yield empty fields). -/
def splitSpaces : List Char → List Char → List (List Char)
  | [], acc => [acc.reverse]
  | c :: cs, acc =>
    if c = ' ' then acc.reverse :: splitSpaces cs []
    else splitSpaces cs (c :: acc)

/-- `server.js` line 112: `const token = authHeader && authHeader.split(' ')[1];`
(`none` models an absent header and also the JS `undefined` produced when the
split has no second element). -/
def extractToken (authHeader : Option String) : Option String :=
  match authHeader with
  | none => none
  | some h =>
    if h = "" then some ""
    else (splitSpaces h.toList []).get? 1 |>.map (fun cs => String.mk cs)

/-- The `authenticateToken` middleware (`server.js` lines 110-127), parametrised
by the behaviour of the `jwt.verify` library call. -/
def authenticateToken (verify : String → VerifyResult) (authHeader : Option String) : AuthResult :=
  match extractToken authHeader with
  | none => .missing
  | some t =>
    if t = "" then .missing
    else
      match verify t with
      | .ok claims => .ok claims
      | .err m => .invalid m

/-- Response of `POST /api/register` (`server.js` lines 32-70). -/
inductive RegisterResult where
  | missingFields
  | userExists
  | created (u : User)
deriving DecidableEq

/-- The `POST /api/register` handler (`server.js` lines 32-70).  `newId` models the
`uuidv4()` call and `hashedPassword` the `bcrypt.hash` result.  The only input
validation in the source is the truthiness check `if (!username || !password)`;
the new user is appended with `balance: 1000` and `role: 'user'`. -/
def register (store : Store) (newId hashedPassword : String)
    (username password : Option String) (email : String) : RegisterResult × Store :=
  match username, password with
  | some un, some pw =>
    if un = "" ∨ pw = "" then (.missingFields, store)
    else
      match findUserByUsername store.users un with
      | some _ => (.userExists, store)
      | none =>
        let newUser : User := ⟨newId, un, email, hashedPassword, 1000, "user"⟩
        (.created newUser, ⟨store.users ++ [newUser], store.transactions⟩)
  | _, _ => (.missingFields, store)

/-- Response of `POST /api/send` (`server.js` lines 163-202):
400 `Valid recipient and amount required`, 404 `User not found`,
400 `Insufficient funds`, or 200 with the transaction and the sender's new balance. -/
inductive SendResult where
  | invalidInput
  | userNotFound
  | insufficientFunds
  | ok (txn : Transaction) (newBalance : ℚ)
deriving DecidableEq

/-- The `POST /api/send` handler (`server.js` lines 163-202).  `senderId` comes from
the verified token (`req.user.userId`); `txnId` models `uuidv4()` and `timestamp`
the `new Date().toISOString()` call.  The guard mirrors
`if (!recipientId || !amount || amount <= 0)` (a `0` amount is falsy in JS and
lands in the same branch as `amount <= 0`).  Both users are looked up in the
store before any mutation; then `sender.balance -= amount` and
`recipient.balance += amount` mutate the found objects sequentially, which the
embedding reproduces by two successive first-match balance updates (so a
self-transfer debits and credits the same record).  The reported `newBalance`
is the sender object's balance after both mutations. -/
def send (store : Store) (senderId : String) (recipientId : Option String)
    (amount : Option ℚ) (txnId timestamp : String) : SendResult × Store :=
  match recipientId, amount with
  | some rid, some amt =>
    if rid = "" ∨ amt ≤ 0 then (.invalidInput, store)
    else
      match findUserById store.users senderId, findUserById store.users rid with
      | some sender, some _ =>
        if sender.balance < amt then (.insufficientFunds, store)
        else
          let users1 := updateFirstBalance store.users senderId (fun b => b - amt)
          let users2 := updateFirstBalance users1 rid (fun b => b + amt)
          let txn : Transaction := ⟨txnId, senderId, rid, amt, timestamp, "transfer"⟩
          (.ok txn (balanceOf users2 senderId), ⟨users2, store.transactions ++ [txn]⟩)
      | _, _ => (.userNotFound, store)
  | _, _ => (.invalidInput, store)

/-- Public profile shape returned by `GET /api/user/:userId` and by the admin
listing (`server.js` lines 140-146 and 221-229). -/
structure UserProfile where
  id : String
  username : String
  email : String
  balance : ℚ
  role : String
deriving DecidableEq

/-- Response of `GET /api/user/:userId`. -/
inductive ProfileResult where
  | notFound
  | ok (p : UserProfile)
deriving DecidableEq

/-- The `GET /api/user/:userId` handler (`server.js` lines 130-147).  The caller's
claims are available on `req.user` but the source performs no authorization
check on them (its own comment: `No authorization check - any authenticated
user can access any profile`). -/
def getUserProfile (store : Store) (caller : AuthClaims) (userId : String) : ProfileResult :=
  match findUserById store.users userId with
  | none => .notFound
  | some u => .ok ⟨u.id, u.username, u.email, u.balance, u.role⟩

/-- Response of `GET /api/balance/:userId`. -/
inductive BalanceResult where
  | notFound
  | ok (balance : ℚ)
deriving DecidableEq

/-- The `GET /api/balance/:userId` handler (`server.js` lines 150-160).  No check
that the requesting user matches the `userId` parameter (the source's own
comment marks this). -/
def getBalance (store : Store) (caller : AuthClaims) (userId : String) : BalanceResult :=
  match findUserById store.users userId with
  | none => .notFound
  | some u => .ok u.balance

/-- The `GET /api/transactions/:userId` handler (`server.js` lines 205-214): filters
the ledger on `t.senderId === userId || t.recipientId === userId` and always
responds 200 with the (possibly empty) list; it never consults `users` and has
no failure branch. -/
def getTransactions (store : Store) (caller : AuthClaims) (userId : String) : List Transaction :=
  store.transactions.filter (fun t => t.senderId == userId || t.recipientId == userId)

/-- The `GET /api/admin/users` handler (`server.js` lines 217-230): responds with
every user's public profile for any authenticated caller; the source's own
comment records the absent role check (`Should check req.user.role === 'admin'`). -/
def adminListUsers (store : Store) (caller : AuthClaims) : List UserProfile :=
  store.users.map (fun u => ⟨u.id, u.username, u.email, u.balance, u.role⟩)

/-- Response of `POST /api/admin/modify-balance`. -/
inductive ModifyResult where
  | notFound
  | ok (id username : String) (balance : ℚ)
deriving DecidableEq

/-- The `POST /api/admin/modify-balance` handler (`server.js` lines 233-252):
locates the target user and assigns `user.balance = newBalance` with no role
check and no range validation on `newBalance`. -/
def adminModifyBalance (store : Store) (caller : AuthClaims) (userId : String)
    (newBalance : ℚ) : ModifyResult × Store :=
  match findUserById store.users userId with
  | none => (.notFound, store)
  | some u =>
    (.ok u.id u.username newBalance,
      ⟨updateFirstBalance store.users userId (fun _ => newBalance), store.transactions⟩)

/-- Modelled from the spec: the rounding policy of section 4.3 ("all monetary
values rounded half-away-from-zero to 2 decimal places before comparison and
storage"), which is absent from `src/server.js`.  For `q ≥ 0` this is
`⌊q·100 + 1/2⌋ / 100` (integer division of a nonnegative rational's numerator by
its denominator is its floor), mirrored for negative `q`. -/
def specRound2 (q : ℚ) : ℚ :=
  if q < 0 then -((⌊(-q) * 100 + 1/2⌋ : ℚ) / 100)
  else ((⌊q * 100 + 1/2⌋ : ℚ) / 100)

/-- Modelled from the spec: the transfer of section 4.3 with the spec's rounding
policy applied to the amount before the InsufficientFunds comparison and before
storage — the refinement counterpart against which the source's `send` is
compared for claim C4. -/
def sendSpecRounded (store : Store) (senderId : String) (recipientId : Option String)
    (amount : Option ℚ) (txnId timestamp : String) : SendResult × Store :=
  match recipientId, amount with
  | some rid, some amt =>
    if rid = "" ∨ amt ≤ 0 then (.invalidInput, store)
    else
      let amtR := specRound2 amt
      match findUserById store.users senderId, findUserById store.users rid with
      | some sender, some _ =>
        if sender.balance < amtR then (.insufficientFunds, store)
        else
          let users1 := updateFirstBalance store.users senderId (fun b => b - amtR)
          let users2 := updateFirstBalance users1 rid (fun b => b + amtR)
          let txn : Transaction := ⟨txnId, senderId, rid, amtR, timestamp, "transfer"⟩
          (.ok txn (balanceOf users2 senderId), ⟨users2, store.transactions ++ [txn]⟩)
      | _, _ => (.userNotFound, store)
  | _, _ => (.invalidInput, store)

/-! ### Concrete fixtures -/

/-- A sample non-admin user. -/
def alice : User := ⟨"a", "alice", "alice@x.com", "h1", 1000, "user"⟩

/-- A second sample non-admin user. -/
def bob : User := ⟨"b", "bob", "bob@x.com", "h2", 500, "user"⟩

/-- The startup admin user (`server.js` lines 275-282, concrete id and hash). -/
def adminUser : User := ⟨"adm", "admin", "admin@wallet.com", "h3", 10000, "admin"⟩

/-- A sample store holding the two users and the admin. -/
def store0 : Store := ⟨[alice, bob, adminUser], []⟩

/-- Token claims of `alice` (role `user`, not admin). -/
def aliceClaims : AuthClaims := ⟨"a", "alice", "user"⟩

/-- A store reached from the empty store by two successful registrations
(each new user starts with balance 1000). -/
def storeReg2 : Store :=
  (register (register ⟨[], []⟩ "a" "h1" (some "alice") (some "Password1") "alice@x.com").2
    "b" "h2" (some "bob") (some "Password2") "bob@x.com").2

/-- A model instantiation of the `jwt.verify` library call used to evaluate the
middleware on concrete inputs: one well-signed token and two distinct failure
modes with the library's error texts. -/
def verifyModel (t : String) : VerifyResult :=
  if t = "goodtoken" then .ok ⟨"a", "alice", "user"⟩
  else if t = "badformat" then .err "jwt malformed"
  else .err "invalid signature"

/-! ### Helper lemmas about the store operations -/

/-- The id and username fields of each user entry, in order; used to state that
these fields are never changed by any operation. -/
def idsAndNames (users : List User) : List (String × String) :=
  users.map (fun u => (u.id, u.username))

/-- Sum of all balances in the store. -/
def sumBalances (users : List User) : ℚ :=
  (users.map (fun u => u.balance)).sum

lemma sumBalances_cons (u : User) (l : List User) :
    sumBalances (u :: l) = u.balance + sumBalances l := by
  simp [sumBalances]

lemma findUserById_cons_true (u : User) (rest : List User) (uid : String)
    (hc : (u.id == uid) = true) : findUserById (u :: rest) uid = some u := by
  simp [findUserById, List.find?, hc]

lemma findUserById_cons_false (u : User) (rest : List User) (uid : String)
    (hc : (u.id == uid) = false) : findUserById (u :: rest) uid = findUserById rest uid := by
  simp [findUserById, List.find?, hc]

lemma idsAndNames_updateFirstBalance (us : List User) (uid : String) (f : ℚ → ℚ) :
    idsAndNames (updateFirstBalance us uid f) = idsAndNames us := by
  induction us with
  | nil => rfl
  | cons u rest ih =>
    cases hc : (u.id == uid) with
    | true => simp [updateFirstBalance, hc, idsAndNames]
    | false => simpa [updateFirstBalance, hc, idsAndNames] using ih

lemma updateFirstBalance_nonneg (us : List User) (uid : String) (f : ℚ → ℚ)
    (h0 : ∀ u ∈ us, 0 ≤ u.balance)
    (hf : ∀ w, findUserById us uid = some w → 0 ≤ f w.balance) :
    ∀ v ∈ updateFirstBalance us uid f, 0 ≤ v.balance := by
  induction us with
  | nil => intro v hv; simp [updateFirstBalance] at hv
  | cons u rest ih =>
    intro v hv
    cases hc : (u.id == uid) with
    | true =>
      rw [updateFirstBalance, if_pos hc] at hv
      rcases List.mem_cons.mp hv with rfl | hv'
      · exact hf u (findUserById_cons_true u rest uid hc)
      · exact h0 v (by simp [hv'])
    | false =>
      rw [updateFirstBalance, if_neg (by simp [hc])] at hv
      rcases List.mem_cons.mp hv with rfl | hv'
      · exact h0 _ (by simp)
      · exact ih (fun x hx => h0 x (by simp [hx]))
          (fun w hw => hf w (by rw [findUserById_cons_false u rest uid hc]; exact hw)) v hv'

lemma sumBalances_updateFirstBalance (us : List User) (uid : String) (f : ℚ → ℚ)
    (w : User) (hw : findUserById us uid = some w) :
    sumBalances (updateFirstBalance us uid f) = sumBalances us - w.balance + f w.balance := by
  induction us with
  | nil => simp [findUserById] at hw
  | cons u rest ih =>
    cases hc : (u.id == uid) with
    | true =>
      rw [findUserById_cons_true u rest uid hc] at hw
      injection hw with hw'
      subst hw'
      rw [updateFirstBalance, if_pos hc]
      rw [sumBalances_cons, sumBalances_cons]
      show f u.balance + sumBalances rest = _
      ring
    | false =>
      rw [findUserById_cons_false u rest uid hc] at hw
      rw [updateFirstBalance, if_neg (by simp [hc])]
      rw [sumBalances_cons, sumBalances_cons, ih hw]
      ring

lemma updateFirstBalance_of_find_none (us : List User) (uid : String) (f : ℚ → ℚ)
    (h : findUserById us uid = none) : updateFirstBalance us uid f = us := by
  induction us with
  | nil => rfl
  | cons u rest ih =>
    cases hc : (u.id == uid) with
    | true =>
      rw [findUserById_cons_true u rest uid hc] at h
      exact absurd h (by simp)
    | false =>
      rw [findUserById_cons_false u rest uid hc] at h
      rw [updateFirstBalance, if_neg (by simp [hc]), ih h]

lemma findUserById_updateFirstBalance_ne (us : List User) (uid uid' : String) (f : ℚ → ℚ)
    (h : uid' ≠ uid) :
    findUserById (updateFirstBalance us uid f) uid' = findUserById us uid' := by
  induction us with
  | nil => rfl
  | cons u rest ih =>
    cases hc : (u.id == uid) with
    | true =>
      have hid : u.id = uid := by simpa using hc
      have hne : (u.id == uid') = false := by
        rw [hid]
        exact beq_eq_false_iff_ne.mpr (fun e => h e.symm)
      rw [updateFirstBalance, if_pos hc]
      rw [findUserById_cons_false ⟨u.id, u.username, u.email, u.password, f u.balance, u.role⟩
        rest uid' hne]
      rw [findUserById_cons_false u rest uid' hne]
    | false =>
      rw [updateFirstBalance, if_neg (by simp [hc])]
      cases hc' : (u.id == uid') with
      | true =>
        rw [findUserById_cons_true u _ uid' hc', findUserById_cons_true u rest uid' hc']
      | false =>
        rw [findUserById_cons_false u _ uid' hc', findUserById_cons_false u rest uid' hc']
        exact ih

lemma findUserById_updateFirstBalance_self (us : List User) (uid : String) (f : ℚ → ℚ) :
    findUserById (updateFirstBalance us uid f) uid =
      (findUserById us uid).map
        (fun w => ⟨w.id, w.username, w.email, w.password, f w.balance, w.role⟩) := by
  induction us with
  | nil => rfl
  | cons u rest ih =>
    cases hc : (u.id == uid) with
    | true =>
      rw [updateFirstBalance, if_pos hc]
      rw [findUserById_cons_true ⟨u.id, u.username, u.email, u.password, f u.balance, u.role⟩
        rest uid hc]
      rw [findUserById_cons_true u rest uid hc]
      rfl
    | false =>
      rw [updateFirstBalance, if_neg (by simp [hc])]
      rw [findUserById_cons_false u _ uid hc, findUserById_cons_false u rest uid hc]
      exact ih

lemma updateFirstBalance_comp (us : List User) (uid : String) (f g : ℚ → ℚ) :
    updateFirstBalance (updateFirstBalance us uid f) uid g =
      updateFirstBalance us uid (fun b => g (f b)) := by
  induction us with
  | nil => rfl
  | cons u rest ih =>
    cases hc : (u.id == uid) with
    | true => simp [updateFirstBalance, hc]
    | false => simp [updateFirstBalance, hc, ih]

lemma updateFirstBalance_id (us : List User) (uid : String) :
    updateFirstBalance us uid (fun b => b) = us := by
  induction us with
  | nil => rfl
  | cons u rest ih =>
    cases hc : (u.id == uid) with
    | true => rw [updateFirstBalance, if_pos hc]
    | false => rw [updateFirstBalance, if_neg (by simp [hc]), ih]

lemma balanceOf_congr (us us' : List User) (uid : String)
    (h : findUserById us uid = findUserById us' uid) : balanceOf us uid = balanceOf us' uid := by
  rw [balanceOf, balanceOf, h]

/-- A store with one recorded transaction, used to instantiate theorems about the
transaction-history read. -/
def storeTx : Store := ⟨[alice, bob], [⟨"t1", "a", "b", 5, "ts", "transfer"⟩]⟩

/-- C10: for every authenticated caller, the transaction-history read for a userId
matching no transaction returns the empty list (and, the `users` table being
irrelevant to this handler, the same result is produced whether or not any user
with that id exists); the handler has no failure branch at all, so it never
fails with NotFound. -/
theorem C10_transactions_no_existence_check (store : Store) (caller : AuthClaims)
    (userId : String)
    (h : ∀ t ∈ store.transactions, t.senderId ≠ userId ∧ t.recipientId ≠ userId) :
    getTransactions store caller userId = [] ∧
      getTransactions ⟨[], store.transactions⟩ caller userId =
        getTransactions store caller userId := by
  constructor
  · rw [getTransactions]
    rw [List.filter_eq_nil_iff]
    intro t ht
    obtain ⟨h1, h2⟩ := h t ht
    simp [h1, h2]
  · rfl

/-- Witness for C10 at a concrete store: the id `zz` belongs to no user and no
transaction, and the history read returns the empty list. -/
theorem C10_witness :
    getTransactions storeTx aliceClaims "zz" = [] ∧
      getTransactions ⟨[], storeTx.transactions⟩ aliceClaims "zz" =
        getTransactions storeTx aliceClaims "zz" :=
  C10_transactions_no_existence_check storeTx aliceClaims "zz" (by decide)

/-- C9: every successful transfer preserves the sum of all balances and leaves
every user other than the sender and the recipient untouched — including the
degenerate case where sender and recipient coincide (the handler debits and then
credits the same record, netting to zero). -/
theorem C9_transfer_preserves_total (store : Store) (sid rid : String) (amt : ℚ)
    (tid ts : String) (txn : Transaction) (nb : ℚ) (store' : Store)
    (h : send store sid (some rid) (some amt) tid ts = (.ok txn nb, store')) :
    sumBalances store'.users = sumBalances store.users ∧
      ∀ uid, uid ≠ sid → uid ≠ rid →
        balanceOf store'.users uid = balanceOf store.users uid := by
  rw [send] at h
  split at h
  · simp at h
  · split at h
    · next sender u2 hs hr =>
      split at h
      · simp at h
      · rw [Prod.mk.injEq] at h
        obtain ⟨h1, h2⟩ := h
        subst h2
        constructor
        · show sumBalances (updateFirstBalance
              (updateFirstBalance store.users sid (fun b => b - amt)) rid (fun b => b + amt)) =
            sumBalances store.users
          by_cases hrs : rid = sid
          · subst hrs
            have hself := findUserById_updateFirstBalance_self store.users rid
              (fun b => b - amt)
            rw [hs] at hself
            simp only [Option.map_some'] at hself
            rw [sumBalances_updateFirstBalance _ rid _ _ hself]
            rw [sumBalances_updateFirstBalance store.users rid _ sender hs]
            ring
          · have hr' : findUserById
                (updateFirstBalance store.users sid (fun b => b - amt)) rid = some u2 := by
              rw [findUserById_updateFirstBalance_ne store.users sid rid _ hrs]
              exact hr
            rw [sumBalances_updateFirstBalance _ rid _ _ hr']
            rw [sumBalances_updateFirstBalance store.users sid _ sender hs]
            ring
        · intro uid hu1 hu2
          show balanceOf (updateFirstBalance
              (updateFirstBalance store.users sid (fun b => b - amt)) rid (fun b => b + amt))
              uid = balanceOf store.users uid
          apply balanceOf_congr
          rw [findUserById_updateFirstBalance_ne _ rid uid _ hu2]
          rw [findUserById_updateFirstBalance_ne _ sid uid _ hu1]
    · simp at h

/-- Witness for C9: a successful concrete transfer of 600 from `a` to `b` keeps
the total at 1500 and leaves the absent id `c` untouched. -/
theorem C9_witness :
    sumBalances (⟨[⟨"a", "alice", "alice@x.com", "h1", 400, "user"⟩,
        ⟨"b", "bob", "bob@x.com", "h2", 1100, "user"⟩],
      [⟨"t1", "a", "b", 600, "ts", "transfer"⟩]⟩ : Store).users =
        sumBalances (⟨[alice, bob], []⟩ : Store).users ∧
      ∀ uid, uid ≠ "a" → uid ≠ "b" →
        balanceOf (⟨[⟨"a", "alice", "alice@x.com", "h1", 400, "user"⟩,
            ⟨"b", "bob", "bob@x.com", "h2", 1100, "user"⟩],
          [⟨"t1", "a", "b", 600, "ts", "transfer"⟩]⟩ : Store).users uid =
          balanceOf (⟨[alice, bob], []⟩ : Store).users uid := by
  have h : send (⟨[alice, bob], []⟩ : Store) "a" (some "b") (some 600) "t1" "ts" =
      (.ok ⟨"t1", "a", "b", 600, "ts", "transfer"⟩ 400,
        ⟨[⟨"a", "alice", "alice@x.com", "h1", 400, "user"⟩,
          ⟨"b", "bob", "bob@x.com", "h2", 1100, "user"⟩],
        [⟨"t1", "a", "b", 600, "ts", "transfer"⟩]⟩) := by
    simp [send, alice, bob, findUserById, List.find?, updateFirstBalance, balanceOf]
    all_goals norm_num
  exact C9_transfer_preserves_total _ _ _ _ _ _ _ _ _ h

/-- C1: evaluation of the source at the failing input.  The non-admin caller
`alice` (claims role `user`, subject id `a`) requests the balance and the
profile of the distinct existing user `b`: both reads succeed and return `b`'s
data instead of failing Forbidden — the handlers never consult the caller's
claims (IDOR, as the source's own comments record).  The own-id read also
succeeds, as the claim states. -/
theorem C1_idor_evaluation :
    aliceClaims.role ≠ "admin" ∧ aliceClaims.userId ≠ "b" ∧
      getBalance store0 aliceClaims "b" = .ok 500 ∧
      getUserProfile store0 aliceClaims "b" = .ok ⟨"b", "bob", "bob@x.com", 500, "user"⟩ ∧
      getBalance store0 aliceClaims "a" = .ok 1000 := by
  refine ⟨by decide, by decide, ?_, ?_, ?_⟩ <;>
    simp [getBalance, getUserProfile, store0, alice, bob, adminUser, aliceClaims,
      findUserById, List.find?]

/-- C2: evaluation of the source at the failing input.  The non-admin caller
`alice` successfully lists every user via the admin endpoint, and successfully
sets user `b`'s balance to `-5` via the admin modify-balance endpoint — no
Forbidden, no role check, and no `[0, ceiling]` validation of `newBalance`
(the resulting stored balance is negative). -/
theorem C2_admin_bypass_evaluation :
    aliceClaims.role ≠ "admin" ∧
      adminListUsers store0 aliceClaims =
        [⟨"a", "alice", "alice@x.com", 1000, "user"⟩,
         ⟨"b", "bob", "bob@x.com", 500, "user"⟩,
         ⟨"adm", "admin", "admin@wallet.com", 10000, "admin"⟩] ∧
      (adminModifyBalance store0 aliceClaims "b" (-5)).1 = .ok "b" "bob" (-5) ∧
      balanceOf (adminModifyBalance store0 aliceClaims "b" (-5)).2.users "b" = -5 ∧
      (-5 : ℚ) < 0 := by
  refine ⟨by decide, ?_, ?_, ?_, by norm_num⟩ <;>
    simp [adminListUsers, adminModifyBalance, store0, alice, bob, adminUser,
      findUserById, List.find?, updateFirstBalance, balanceOf]

/-- C6: evaluation of the source at the failing inputs.  Two credentials on which
validation fails (a malformed token and one with a bad signature, as modelled
by `verifyModel`) produce two different 403 responses, each carrying the raw
library error text in its `details` field — not one generic message. -/
theorem C6_error_details_leak_evaluation :
    authenticateToken verifyModel (some "Bearer badformat") = .invalid "jwt malformed" ∧
      authenticateToken verifyModel (some "Bearer sometoken") = .invalid "invalid signature" ∧
      ("jwt malformed" : String) ≠ "invalid signature" := by
  refine ⟨by decide, by decide, by decide⟩

/-- C7: evaluation of the source at the failing inputs.  Registration with the
2-character username `ab` and registration with the weak password `short` both
succeed and create a user (the handler only checks that username and password
are present), contrary to the claimed InvalidInput failures. -/
theorem C7_weak_validation_evaluation :
    (register ⟨[], []⟩ "id1" "h1" (some "ab") (some "Password1") "a@b.com").1 =
        .created ⟨"id1", "ab", "a@b.com", "h1", 1000, "user"⟩ ∧
      (register ⟨[], []⟩ "id1" "h1" (some "ab") (some "Password1") "a@b.com").2.users.length = 1 ∧
      (register ⟨[], []⟩ "id2" "h2" (some "alice") (some "short") "a@b.com").1 =
        .created ⟨"id2", "alice", "a@b.com", "h2", 1000, "user"⟩ ∧
      (register ⟨[], []⟩ "id2" "h2" (some "alice") (some "short") "a@b.com").2.users.length = 1 := by
  refine ⟨?_, by decide, ?_, by decide⟩ <;>
    simp [register, findUserByUsername, List.find?]

lemma balanceOf_of_find (us : List User) (uid : String) (s : User)
    (h : findUserById us uid = some s) : balanceOf us uid = s.balance := by
  rw [balanceOf, h]

lemma send_of_guard (store : Store) (sid rid : String) (amt : ℚ) (tid ts : String)
    (h : rid = "" ∨ amt ≤ 0) :
    send store sid (some rid) (some amt) tid ts = (.invalidInput, store) := by
  rw [send, if_pos h]

lemma send_of_found (store : Store) (sid rid : String) (amt : ℚ) (tid ts : String)
    (s r : User) (hguard : ¬(rid = "" ∨ amt ≤ 0))
    (hs : findUserById store.users sid = some s)
    (hr : findUserById store.users rid = some r) :
    send store sid (some rid) (some amt) tid ts =
      if s.balance < amt then (.insufficientFunds, store)
      else
        (.ok ⟨tid, sid, rid, amt, ts, "transfer"⟩
            (balanceOf (updateFirstBalance
              (updateFirstBalance store.users sid (fun b => b - amt)) rid (fun b => b + amt))
              sid),
          ⟨updateFirstBalance (updateFirstBalance store.users sid (fun b => b - amt)) rid
              (fun b => b + amt),
            store.transactions ++ [⟨tid, sid, rid, amt, ts, "transfer"⟩]⟩) := by
  rw [send, if_neg hguard, hs, hr]

/-- Computation of the spec's rounding at the spec's own example value
1000.005, which rounds up to 1000.01. -/
lemma specRound2_at_1000005 : specRound2 (200001/200) = 100001/100 := by
  rw [specRound2, if_neg (by norm_num)]
  rw [show ((200001:ℚ)/200 * 100 + 1/2) = 100001 by norm_num]
  rw [show (⌊(100001:ℚ)⌋ : ℤ) = 100001 by rw [Int.floor_eq_iff]; norm_num]
  norm_num

/-- Computation of the spec's rounding at 1000.004, which rounds down to 1000. -/
lemma specRound2_at_1000004 : specRound2 (250001/250) = 1000 := by
  rw [specRound2, if_neg (by norm_num)]
  rw [show ((250001:ℚ)/250 * 100 + 1/2) = 1000009/10 by norm_num]
  rw [show (⌊(1000009:ℚ)/10⌋ : ℤ) = 100000 by rw [Int.floor_eq_iff]; norm_num]
  norm_num

/-- C3 counterexample: starting from a store reached by two successful
registrations (all balances 1000), the admin modify-balance operation with
`newBalance = -5` leaves user `b` with a negative balance, refuting the claim
that every mutating operation preserves balance ≥ 0. -/
theorem C3_counterexample_negative_balance :
    balanceOf (adminModifyBalance storeReg2 ⟨"a", "alice", "user"⟩ "b" (-5)).2.users "b" =
      -5 ∧ ((-5 : ℚ) < 0) := by
  constructor
  · simp [adminModifyBalance, storeReg2, register, findUserById, findUserByUsername,
      List.find?, updateFirstBalance, balanceOf]
  · norm_num

/-- C3 (amended): on any store whose balances are all nonnegative, registration
and transfer preserve nonnegativity of every balance, and every operation
(including admin modify-balance) preserves the id and username of every
existing user; admin modify-balance writes the caller-supplied `newBalance`
unvalidated, so it preserves nonnegativity only under the extra assumption
`0 ≤ newBalance`. -/
theorem C3_amended_invariants (store : Store) (h0 : ∀ u ∈ store.users, 0 ≤ u.balance) :
    (∀ nid hp un pw em,
      (∀ u ∈ (register store nid hp un pw em).2.users, 0 ≤ u.balance) ∧
        ∃ tail, (register store nid hp un pw em).2.users = store.users ++ tail) ∧
    (∀ sid rid amount tid ts,
      (∀ u ∈ (send store sid rid amount tid ts).2.users, 0 ≤ u.balance) ∧
        idsAndNames (send store sid rid amount tid ts).2.users = idsAndNames store.users) ∧
    (∀ c uid nb,
      idsAndNames (adminModifyBalance store c uid nb).2.users = idsAndNames store.users ∧
        (0 ≤ nb → ∀ u ∈ (adminModifyBalance store c uid nb).2.users, 0 ≤ u.balance)) := by
  refine ⟨?_, ?_, ?_⟩
  · intro nid hp un pw em
    rcases un with _ | un
    · refine ⟨h0, ⟨[], ?_⟩⟩
      show store.users = store.users ++ []
      simp
    rcases pw with _ | pw
    · refine ⟨h0, ⟨[], ?_⟩⟩
      show store.users = store.users ++ []
      simp
    rw [register]
    split
    · exact ⟨h0, ⟨[], by simp⟩⟩
    · split
      · exact ⟨h0, ⟨[], by simp⟩⟩
      · constructor
        · intro u hu
          rcases List.mem_append.mp hu with hu' | hu'
          · exact h0 u hu'
          · simp only [List.mem_singleton] at hu'
            subst hu'
            show (0:ℚ) ≤ 1000
            norm_num
        · exact ⟨[⟨nid, un, em, hp, 1000, "user"⟩], rfl⟩
  · intro sid rid amount tid ts
    rcases rid with _ | rid
    · exact ⟨h0, rfl⟩
    rcases amount with _ | amt
    · exact ⟨h0, rfl⟩
    rw [send]
    split
    · exact ⟨h0, rfl⟩
    · next hguard =>
      split
      · next sender u2 hs hr =>
        split
        · exact ⟨h0, rfl⟩
        · next hbal =>
          have hpos : 0 < amt := by
            by_contra hc
            exact hguard (Or.inr (not_lt.mp hc))
          have h1 : ∀ v ∈ updateFirstBalance store.users sid (fun b => b - amt),
              0 ≤ v.balance := by
            apply updateFirstBalance_nonneg _ _ _ h0
            intro w hw
            rw [hs] at hw
            injection hw with hw'
            subst hw'
            show 0 ≤ sender.balance - amt
            have := not_lt.mp hbal
            linarith
          refine ⟨?_, ?_⟩
          · apply updateFirstBalance_nonneg _ _ _ h1
            intro w hw
            show 0 ≤ w.balance + amt
            have := h1 w (List.mem_of_find?_eq_some hw)
            linarith
          · show idsAndNames (updateFirstBalance
                (updateFirstBalance store.users sid (fun b => b - amt)) rid
                (fun b => b + amt)) = idsAndNames store.users
            rw [idsAndNames_updateFirstBalance, idsAndNames_updateFirstBalance]
      · exact ⟨h0, rfl⟩
  · intro c uid nb
    rw [adminModifyBalance]
    split
    · exact ⟨rfl, fun _ => h0⟩
    · constructor
      · show idsAndNames (updateFirstBalance store.users uid (fun _ => nb)) =
          idsAndNames store.users
        rw [idsAndNames_updateFirstBalance]
      · intro hnb
        apply updateFirstBalance_nonneg _ _ _ h0
        intro w hw
        exact hnb

/-- Witness for C3 (amended) at the concrete store `store0`: a registration, a
transfer and a nonnegative admin modification each leave every balance
nonnegative, and the transfer preserves ids and usernames. -/
theorem C3_witness :
    (∀ u ∈ (register store0 "n1" "h9" (some "carol") (some "Password3") "c@x.com").2.users,
        0 ≤ u.balance) ∧
      idsAndNames (send store0 "a" (some "b") (some 100) "t9" "ts").2.users =
        idsAndNames store0.users ∧
      (∀ u ∈ (adminModifyBalance store0 aliceClaims "b" 7).2.users, 0 ≤ u.balance) := by
  have h0 : ∀ u ∈ store0.users, 0 ≤ u.balance := by
    intro u hu
    simp only [store0, List.mem_cons, List.not_mem_nil, or_false] at hu
    rcases hu with rfl | rfl | rfl <;> norm_num [alice, bob, adminUser]
  have h := C3_amended_invariants store0 h0
  exact ⟨(h.1 "n1" "h9" (some "carol") (some "Password3") "c@x.com").1,
    (h.2.1 "a" (some "b") (some 100) "t9" "ts").2,
    (h.2.2 aliceClaims "b" 7).2 (by norm_num)⟩

/-- C5 counterexample: a self-transfer of 10 from `a` to `a` (balance 1000) does
not fail with a SelfTransfer error — it succeeds, reports the unchanged balance
1000, and appends a transaction record, refuting the claimed failure with no
record appended. -/
theorem C5_counterexample_selftransfer_succeeds :
    (send store0 "a" (some "a") (some 10) "t" "ts").1 =
        .ok ⟨"t", "a", "a", 10, "ts", "transfer"⟩ 1000 ∧
      (send store0 "a" (some "a") (some 10) "t" "ts").2.transactions =
        [⟨"t", "a", "a", 10, "ts", "transfer"⟩] := by
  constructor <;>
    · simp [send, store0, alice, bob, adminUser, findUserById, List.find?,
        updateFirstBalance, balanceOf]
      all_goals norm_num

/-- C5 (amended): a transfer whose amount is non-positive fails with the 400
invalid-input error and changes nothing; but the handler has no self-transfer
check: a transfer from a user to itself with sufficient balance succeeds, leaves
every user record unchanged (the debit and credit hit the same record), reports
the sender's unchanged balance, and appends a transaction record. -/
theorem C5_amended_selftransfer (store : Store) (sid rid : String) (amt : ℚ)
    (tid ts : String) :
    (amt ≤ 0 → send store sid (some rid) (some amt) tid ts = (.invalidInput, store)) ∧
    (∀ s : User, sid ≠ "" → 0 < amt → findUserById store.users sid = some s →
      ¬ s.balance < amt →
      send store sid (some sid) (some amt) tid ts =
        (.ok ⟨tid, sid, sid, amt, ts, "transfer"⟩ s.balance,
          ⟨store.users, store.transactions ++ [⟨tid, sid, sid, amt, ts, "transfer"⟩]⟩)) := by
  constructor
  · exact fun hle => send_of_guard store sid rid amt tid ts (Or.inr hle)
  · intro s hne hpos hfind hbal
    rw [send_of_found store sid sid amt tid ts s s
      (by push_neg; exact ⟨hne, hpos⟩) hfind hfind]
    rw [if_neg hbal]
    have hcomp : updateFirstBalance (updateFirstBalance store.users sid (fun b => b - amt))
        sid (fun b => b + amt) = store.users := by
      rw [updateFirstBalance_comp]
      rw [show (fun b : ℚ => b - amt + amt) = (fun b : ℚ => b) from by funext b; ring]
      rw [updateFirstBalance_id]
    rw [hcomp, balanceOf_of_find store.users sid s hfind]

/-- Witness for C5 (amended): a transfer of −5 fails with the invalid-input
error leaving the store unchanged, and a self-transfer of 10 by `a`
(balance 1000) succeeds with unchanged users and an appended record. -/
theorem C5_witness :
    send store0 "a" (some "b") (some (-5)) "t" "ts" = (.invalidInput, store0) ∧
      send store0 "a" (some "a") (some 10) "t" "ts" =
        (.ok ⟨"t", "a", "a", 10, "ts", "transfer"⟩ alice.balance,
          ⟨store0.users, store0.transactions ++ [⟨"t", "a", "a", 10, "ts", "transfer"⟩]⟩) := by
  refine ⟨(C5_amended_selftransfer store0 "a" "b" (-5) "t" "ts").1 (by norm_num),
    (C5_amended_selftransfer store0 "a" "a" 10 "t" "ts").2 alice (by decide) (by norm_num)
      ?_ ?_⟩
  · simp [store0, alice, bob, adminUser, findUserById, List.find?]
  · show ¬ alice.balance < 10
    rw [show alice.balance = 1000 from rfl]
    norm_num

lemma find_store0_a : findUserById store0.users "a" = some alice := by
  simp [store0, alice, findUserById, List.find?]

lemma find_store0_b : findUserById store0.users "b" = some bob := by
  simp [store0, alice, bob, findUserById, List.find?]

/-- Success shape of the spec-modelled rounded transfer, mirroring
`send_of_found`. -/
lemma sendSpecRounded_of_found (store : Store) (sid rid : String) (amt : ℚ)
    (tid ts : String) (s r : User) (hguard : ¬(rid = "" ∨ amt ≤ 0))
    (hs : findUserById store.users sid = some s)
    (hr : findUserById store.users rid = some r) :
    sendSpecRounded store sid (some rid) (some amt) tid ts =
      if s.balance < specRound2 amt then (.insufficientFunds, store)
      else
        (.ok ⟨tid, sid, rid, specRound2 amt, ts, "transfer"⟩
            (balanceOf (updateFirstBalance
              (updateFirstBalance store.users sid (fun b => b - specRound2 amt)) rid
              (fun b => b + specRound2 amt)) sid),
          ⟨updateFirstBalance
              (updateFirstBalance store.users sid (fun b => b - specRound2 amt)) rid
              (fun b => b + specRound2 amt),
            store.transactions ++ [⟨tid, sid, rid, specRound2 amt, ts, "transfer"⟩]⟩) := by
  rw [sendSpecRounded, if_neg hguard, hs, hr]

/-- C4 counterexample: for sender balance 1000.00 and amount 1000.004
(= 250001/250), the source's transfer fails InsufficientFunds because it
compares the raw amount (1000 < 1000.004), whereas a transfer that first rounds
the amount half-away-from-zero to 2 decimals — as the claim states — would
compare 1000 ≤ 1000 and succeed.  The source performs no rounding before the
comparison. -/
theorem C4_counterexample_no_rounding :
    (send store0 "a" (some "b") (some (250001/250)) "t" "ts").1 = .insufficientFunds ∧
      (sendSpecRounded store0 "a" (some "b") (some (250001/250)) "t" "ts").1 ≠
        .insufficientFunds := by
  constructor
  · rw [send_of_found store0 "a" "b" (250001/250) "t" "ts" alice bob
      (by push_neg; exact ⟨by decide, by norm_num⟩) find_store0_a find_store0_b]
    rw [if_pos (by rw [show alice.balance = (1000:ℚ) from rfl]; norm_num)]
  · rw [sendSpecRounded_of_found store0 "a" "b" (250001/250) "t" "ts" alice bob
      (by push_neg; exact ⟨by decide, by norm_num⟩) find_store0_a find_store0_b]
    rw [specRound2_at_1000004]
    rw [if_neg (by rw [show alice.balance = (1000:ℚ) from rfl]; norm_num)]
    simp

/-- C4 (amended): the transfer handler performs no rounding at all — the raw
amount is used in the InsufficientFunds comparison and is stored unchanged in
the transaction record; the spec's concrete example (balance 1000.00, amount
1000.005 = 200001/200) still fails InsufficientFunds, but through the raw
comparison 1000 < 1000.005, not through rounding to 1000.01. -/
theorem C4_amended_raw_amounts (store : Store) (sid rid : String) (amt : ℚ)
    (tid ts : String) (txn : Transaction) (nb : ℚ) (store' : Store) :
    ((send store0 "a" (some "b") (some (200001/200)) "t" "ts").1 = .insufficientFunds) ∧
    (send store sid (some rid) (some amt) tid ts = (.ok txn nb, store') →
      txn.amount = amt ∧
      store'.transactions = store.transactions ++ [⟨tid, sid, rid, amt, ts, "transfer"⟩]) := by
  constructor
  · rw [send_of_found store0 "a" "b" (200001/200) "t" "ts" alice bob
      (by push_neg; exact ⟨by decide, by norm_num⟩) find_store0_a find_store0_b]
    rw [if_pos (by rw [show alice.balance = (1000:ℚ) from rfl]; norm_num)]
  · intro h
    rw [send] at h
    split at h
    · simp at h
    · split at h
      · next sender u2 hs hr =>
        split at h
        · simp at h
        · rw [Prod.mk.injEq] at h
          obtain ⟨h1, h2⟩ := h
          injection h1 with htxn hnb
          subst htxn
          subst h2
          exact ⟨rfl, rfl⟩
      · simp at h

/-- Witness for C4 (amended): a successful concrete transfer of 600 records the
raw amount 600 and appends exactly that record to the ledger. -/
theorem C4_witness :
    (⟨"t2", "a", "b", 600, "ts", "transfer"⟩ : Transaction).amount = 600 ∧
      (⟨[⟨"a", "alice", "alice@x.com", "h1", 400, "user"⟩,
          ⟨"b", "bob", "bob@x.com", "h2", 1100, "user"⟩, adminUser],
        [⟨"t2", "a", "b", 600, "ts", "transfer"⟩]⟩ : Store).transactions =
        store0.transactions ++ [⟨"t2", "a", "b", 600, "ts", "transfer"⟩] := by
  apply (C4_amended_raw_amounts store0 "a" "b" 600 "t2" "ts"
      ⟨"t2", "a", "b", 600, "ts", "transfer"⟩ 400
      ⟨[⟨"a", "alice", "alice@x.com", "h1", 400, "user"⟩,
        ⟨"b", "bob", "bob@x.com", "h2", 1100, "user"⟩, adminUser],
      [⟨"t2", "a", "b", 600, "ts", "transfer"⟩]⟩).2
  simp [send, store0, alice, bob, adminUser, findUserById, List.find?,
    updateFirstBalance, balanceOf]
  all_goals norm_num
